import Mathlib

/-!
Shallow embedding of the backend-tabunganKita Period & Ledger Engine:
the savings routes (upsert / list / get / delete / force-delete) and the
transactions routes (create / list-for-saving / list / update / delete),
translated from `src/index.js` (savings router part) and
`src/routes/transactions.js`.

Modelling choices:
* JS numbers are rationals (`Rat`): exact arithmetic stand-in for floats.
* A JS `Date` is a pair of an epoch timestamp (used by `orderBy date`)
  and the day-of-month that `getDate()` returns.
* Request-body fields are `Option`-valued; JS truthiness of a number
  (`!x` rejects `undefined`, `null` and `0`) is made explicit.
* The database is an in-memory list of rows plus id counters; Prisma
  `findFirst` is `List.find?`, `findMany where` is `List.filter`,
  `orderBy` is a stable sort, `create` appends, `update where id` maps,
  `delete`/`deleteMany` filter.  Operations run sequentially; Prisma's
  `$transaction` block of the force-delete is a single atomic step here.
* `include`/`select` clauses that only shape the JSON payload (embedding
  the parent saving inside each transaction) are not modelled; they do
  not affect the fields the specification speaks about.
-/

namespace TabunganKita

/-- A JavaScript `Date` as the engine consumes it: `time` is the epoch
timestamp that `orderBy: { date: 'desc' }` sorts on, `day` is the
day-of-month returned by `getDate()`. -/
structure DateV where
  time : Nat
  day : Nat
deriving DecidableEq, Repr

/-- A row of the `savings` table (see the Prisma migration). -/
structure Saving where
  id : Nat
  userId : Nat
  monthlyIncome : Rat
  savingTarget : Rat
  availableAmount : Rat
  dailyBudget : Rat
  period : String
  month : Int
  year : Int
  weekNumber : Option Int
deriving DecidableEq, Repr

/-- A row of the `transactions` table. -/
structure Transaction where
  id : Nat
  userId : Nat
  savingId : Nat
  amount : Rat
  type : String
  description : String
  date : DateV
deriving DecidableEq, Repr

/-- The persistent store: rows plus auto-increment counters. -/
structure DB where
  savings : List Saving
  transactions : List Transaction
  nextSavingId : Nat
  nextTxId : Nat
deriving DecidableEq, Repr

/-- The error taxonomy of the routes: 400 validation errors, 404
not-found, and the 400 "has dependent transactions" conflict, which
reports `transactionCount`. -/
inductive ApiError where
  | validation (msg : String)
  | notFound (msg : String)
  | conflict (msg : String) (transactionCount : Nat)
deriving DecidableEq, Repr

/-- JS truthiness of a possibly-absent number: `undefined`, `null` and
`0` are falsy, every other number is truthy. -/
def truthyNum (x : Option Rat) : Bool :=
  match x with
  | none => false
  | some v => v != 0

/-- JS truthiness of a possibly-absent integer field. -/
def truthyInt (x : Option Int) : Bool :=
  match x with
  | none => false
  | some v => v != 0

/-- JS truthiness of a possibly-absent id. -/
def truthyNat (x : Option Nat) : Bool :=
  match x with
  | none => false
  | some v => v != 0

/-- Gregorian leap-year rule, as used by the JS `Date` object. -/
def isLeapYear (y : Int) : Bool :=
  y % 4 == 0 && (y % 100 != 0 || y % 400 == 0)

/-- Number of days of a calendar month: the value of
`new Date(year, month, 0).getDate()` for `month` in 1..12 (JS months are
0-based, so day 0 of 0-based month `month` is the last day of 1-based
month `month`). -/
def daysInMonth (month year : Int) : Nat :=
  if month == 2 then (if isLeapYear year then 29 else 28)
  else if month == 4 || month == 6 || month == 9 || month == 11 then 30
  else 31

/-- Stable insertion sort; `after x y = true` means `x` is ordered
strictly after `y`.  Models the store's `orderBy`: ties keep their
original (insertion) order. -/
def insertSorted (after : α → α → Bool) (x : α) : List α → List α
  | [] => [x]
  | y :: ys => if after x y then y :: insertSorted after x ys else x :: y :: ys

/-- Sort a list of rows with a stable insertion sort. -/
def sortRows (after : α → α → Bool) : List α → List α
  | [] => []
  | x :: xs => insertSorted after x (sortRows after xs)

/-- `orderBy: { date: 'desc' }`: a transaction comes after another
exactly when its timestamp is strictly smaller. -/
def byDateDesc (a b : Transaction) : Bool :=
  a.date.time < b.date.time

/-- The request body of `POST /savings` (absent fields are `none`;
`period` defaults to `'monthly'` when absent). -/
structure SavingReq where
  monthlyIncome : Option Rat := none
  savingTarget : Option Rat := none
  period : Option String := none
  month : Option Int := none
  year : Option Int := none
  weekNumber : Option Int := none
deriving DecidableEq, Repr

/-- `POST /savings` from the savings router: validation in source
order, then a Prisma `upsert` for weekly periods or a
`findFirst` + `update`/`create` pair for monthly periods.  The source
computes the day count before the month/year checks, but that value is
only consumed on the success path, so computing it after validation is
observationally equivalent. -/
def upsertSaving (db : DB) (userId : Nat) (req : SavingReq) :
    Except ApiError (DB × Saving) :=
  if !truthyNum req.monthlyIncome || !truthyNum req.savingTarget then
    .error (.validation "Monthly income and saving target are required")
  else
    let finalMonthlyIncome := req.monthlyIncome.getD 0
    let finalSavingTarget := req.savingTarget.getD 0
    let finalAvailableAmount := finalMonthlyIncome - finalSavingTarget
    let periodStr := req.period.getD "monthly"
    if finalMonthlyIncome ≤ 0 then
      .error (.validation "Monthly income must be positive")
    else if finalSavingTarget < 0 then
      .error (.validation "Saving target cannot be negative")
    else if finalSavingTarget ≥ finalMonthlyIncome then
      .error (.validation "Saving target cannot be equal or greater than monthly income")
    else if !truthyInt req.month || !truthyInt req.year then
      .error (.validation "Month and year are required")
    else
      let month := req.month.getD 0
      let year := req.year.getD 0
      if month < 1 || month > 12 then
        .error (.validation "Month must be between 1 and 12")
      else
        let days : Nat := if periodStr == "weekly" then 7 else daysInMonth month year
        let finalDailyBudget := finalAvailableAmount / (days : Rat)
        if periodStr == "weekly" then
          if !truthyInt req.weekNumber then
            .error (.validation "Week number is required for weekly savings")
          else
            let wk := req.weekNumber.getD 0
            match db.savings.find? (fun s =>
                s.userId == userId && s.month == month && s.year == year &&
                s.weekNumber == some wk) with
            | some s0 =>
              let s' := { s0 with
                monthlyIncome := finalMonthlyIncome
                savingTarget := finalSavingTarget
                availableAmount := finalAvailableAmount
                dailyBudget := finalDailyBudget
                period := periodStr }
              .ok ({ db with savings := db.savings.map fun t => if t.id == s0.id then s' else t }, s')
            | none =>
              let s' : Saving := {
                id := db.nextSavingId
                userId := userId
                monthlyIncome := finalMonthlyIncome
                savingTarget := finalSavingTarget
                availableAmount := finalAvailableAmount
                dailyBudget := finalDailyBudget
                period := periodStr
                month := month
                year := year
                weekNumber := some wk }
              .ok ({ db with savings := db.savings ++ [s'], nextSavingId := db.nextSavingId + 1 }, s')
        else
          match db.savings.find? (fun s =>
              s.userId == userId && s.month == month && s.year == year &&
              s.weekNumber == none) with
          | some s0 =>
            let s' := { s0 with
              monthlyIncome := finalMonthlyIncome
              savingTarget := finalSavingTarget
              availableAmount := finalAvailableAmount
              dailyBudget := finalDailyBudget
              period := periodStr }
            .ok ({ db with savings := db.savings.map fun t => if t.id == s0.id then s' else t }, s')
          | none =>
            let s' : Saving := {
              id := db.nextSavingId
              userId := userId
              monthlyIncome := finalMonthlyIncome
              savingTarget := finalSavingTarget
              availableAmount := finalAvailableAmount
              dailyBudget := finalDailyBudget
              period := periodStr
              month := month
              year := year
              weekNumber := none }
            .ok ({ db with savings := db.savings ++ [s'], nextSavingId := db.nextSavingId + 1 }, s')

/-- One element of the `GET /savings/all` response: the saving with its
included transactions and the computed summary block. -/
structure SavingListItem where
  saving : Saving
  transactions : List Transaction
  totalSpent : Rat
  remainingBudget : Rat
  transactionCount : Nat
deriving DecidableEq, Repr

/-- Sum of transaction amounts, as `reduce((sum, t) => sum + t.amount, 0)`. -/
def sumAmounts (txs : List Transaction) : Rat :=
  List.foldl (fun acc t => acc + t.amount) 0 txs

/-- `GET /savings/all`: the caller's savings ordered `(year desc, month
desc)`, each with its included transactions and a summary. -/
def listSavings (db : DB) (userId : Nat) : List SavingListItem :=
  let savs := sortRows
    (fun a b => a.year < b.year || (a.year == b.year && a.month < b.month))
    (db.savings.filter fun s => s.userId == userId)
  savs.map fun s =>
    let txs := db.transactions.filter fun t => t.savingId == s.id
    let totalSpent := sumAmounts txs
    { saving := s
      transactions := txs
      totalSpent := totalSpent
      remainingBudget := s.availableAmount - totalSpent
      transactionCount := txs.length }

/-- The summary block of `GET /savings/:year/:month`. -/
structure MonthSummary where
  totalSpent : Rat
  remainingBudget : Rat
  expectedSpent : Rat
  difference : Rat
  daysInMonth : Nat
  currentDay : Nat
deriving DecidableEq, Repr

/-- `GET /savings/:year/:month`: the monthly saving (`weekNumber =
null`) for the slot, its transactions newest-first, and a summary
computed against wall-clock "today" (`now`). -/
def getSaving (db : DB) (userId : Nat) (year month : Int) (now : DateV) :
    Except ApiError (Saving × List Transaction × MonthSummary) :=
  match db.savings.find? (fun s =>
      s.userId == userId && s.month == month && s.year == year &&
      s.weekNumber == none) with
  | none => .error (.notFound "Savings not found for this month")
  | some saving =>
    let txs := sortRows byDateDesc (db.transactions.filter fun t => t.savingId == saving.id)
    let totalSpent := sumAmounts txs
    let expectedSpent := saving.dailyBudget * (now.day : Rat)
    .ok (saving, txs,
      { totalSpent := totalSpent
        remainingBudget := saving.availableAmount - totalSpent
        expectedSpent := expectedSpent
        difference := expectedSpent - totalSpent
        daysInMonth := daysInMonth month year
        currentDay := now.day })

/-- `DELETE /savings/:id`: the safe deletion path, which refuses to
delete a saving that still has transactions and reports their count. -/
def deleteSaving (db : DB) (userId savingId : Nat) :
    Except ApiError (DB × Saving) :=
  match db.savings.find? (fun s => s.id == savingId && s.userId == userId) with
  | none => .error (.notFound "Saving not found or does not belong to you")
  | some saving =>
    let deps := db.transactions.filter fun t => t.savingId == savingId
    if deps.length > 0 then
      .error (.conflict "Cannot delete saving with existing transactions" deps.length)
    else
      .ok ({ db with savings := db.savings.filter fun s => !(s.id == savingId) }, saving)

/-- `DELETE /savings/:id/force`: deletes every transaction referencing
the saving and then the saving itself inside one `$transaction` block
(a single atomic step of this model); returns the number of deleted
transactions. -/
def forceDeleteSaving (db : DB) (userId savingId : Nat) :
    Except ApiError (DB × Saving × Nat) :=
  match db.savings.find? (fun s => s.id == savingId && s.userId == userId) with
  | none => .error (.notFound "Saving not found or does not belong to you")
  | some saving =>
    let transactionCount := (db.transactions.filter fun t => t.savingId == savingId).length
    .ok ({ db with
            transactions := db.transactions.filter fun t => !(t.savingId == savingId)
            savings := db.savings.filter fun s => !(s.id == savingId) },
         saving, transactionCount)

/-- The request body of `POST /transactions`. -/
structure TxCreateReq where
  amount : Option Rat := none
  description : Option String := none
  date : Option DateV := none
  savingId : Option Nat := none
deriving DecidableEq, Repr

/-- `POST /transactions`: validation, ownership check of the referenced
saving, then insertion.  `occurredAt` defaults to the wall clock `now`;
`description` defaults to the empty string; `type` takes the schema
default `'expense'`. -/
def createTransaction (db : DB) (userId : Nat) (req : TxCreateReq) (now : DateV) :
    Except ApiError (DB × Transaction) :=
  if !truthyNum req.amount || !truthyNat req.savingId then
    .error (.validation "Amount and saving ID are required")
  else if req.amount.getD 0 ≤ 0 then
    .error (.validation "Amount must be positive")
  else
    let sid := req.savingId.getD 0
    match db.savings.find? (fun s => s.id == sid && s.userId == userId) with
    | none => .error (.notFound "Saving not found")
    | some _ =>
      let tx : Transaction := {
        id := db.nextTxId
        userId := userId
        savingId := sid
        amount := req.amount.getD 0
        type := "expense"
        description := req.description.getD ""
        date := req.date.getD now }
      .ok ({ db with transactions := db.transactions ++ [tx], nextTxId := db.nextTxId + 1 }, tx)

/-- One element of the `GET /transactions/saving/:savingId` response:
the transaction decorated with the running total, the expected spend up
to its day-of-month, and the difference.  `plusSign` records whether the
`difference` string is rendered with an explicit leading `+`
(`difference >= 0 ? "+" + ... : ...`). -/
structure TxView where
  tx : Transaction
  runningTotal : Rat
  expectedSpent : Rat
  difference : Rat
  plusSign : Bool
deriving DecidableEq, Repr

/-- The `map` of the transactions route: walk the FETCHED (newest-first)
list accumulating `runningTotal += amount` and computing
`expectedSpent = dailyBudget * dayOfMonth` and
`difference = expectedSpent - runningTotal` for each element. -/
def addRunningTotals (dailyBudget : Rat) : List Transaction → Rat → List TxView
  | [], _ => []
  | t :: ts, acc =>
    let runningTotal := acc + t.amount
    let expectedSpent := dailyBudget * (t.date.day : Rat)
    let difference := expectedSpent - runningTotal
    { tx := t
      runningTotal := runningTotal
      expectedSpent := expectedSpent
      difference := difference
      plusSign := decide (0 ≤ difference) } :: addRunningTotals dailyBudget ts runningTotal

/-- `GET /transactions/saving/:savingId`: ownership check, fetch the
saving's transactions of the caller ordered newest-first, decorate them
with running totals in that fetched order, then `reverse()` the
decorated list before responding. -/
def listTransactionsForSaving (db : DB) (userId savingId : Nat) :
    Except ApiError (List TxView) :=
  match db.savings.find? (fun s => s.id == savingId && s.userId == userId) with
  | none => .error (.notFound "Saving not found")
  | some saving =>
    let fetched := sortRows byDateDesc
      (db.transactions.filter fun t => t.savingId == savingId && t.userId == userId)
    .ok (addRunningTotals saving.dailyBudget fetched 0).reverse

/-- The pagination block of `GET /transactions`. -/
structure Pagination where
  total : Nat
  limit : Nat
  offset : Nat
  hasMore : Bool
deriving DecidableEq, Repr

/-- `GET /transactions`: the caller's transactions newest-first,
paginated by `skip`/`take`. -/
def listTransactions (db : DB) (userId : Nat) (limit offset : Nat) :
    List Transaction × Pagination :=
  let mine := db.transactions.filter fun t => t.userId == userId
  let txs := ((sortRows byDateDesc mine).drop offset).take limit
  let total := mine.length
  (txs, { total := total, limit := limit, offset := offset,
          hasMore := decide (offset + limit < total) })

/-- The patch applied by `PUT /transactions/:id`: the conditional
spreads of the source.  `amount` and `date` are spread only when truthy
(`...(amount && {...})`, `...(date && {...})`); `description` is spread
whenever it is not `undefined`. -/
def applyTxPatch (amount : Option Rat) (description : Option String)
    (date : Option DateV) (t : Transaction) : Transaction :=
  { t with
    amount := if truthyNum amount then amount.getD 0 else t.amount
    description := description.getD t.description
    date := date.getD t.date }

/-- `PUT /transactions/:id`: ownership check, then a partial update of
the row with that id. -/
def updateTransaction (db : DB) (userId txId : Nat) (amount : Option Rat)
    (description : Option String) (date : Option DateV) :
    Except ApiError (DB × Transaction) :=
  match db.transactions.find? (fun t => t.id == txId && t.userId == userId) with
  | none => .error (.notFound "Transaction not found")
  | some old =>
    .ok ({ db with transactions := db.transactions.map fun t =>
            if t.id == txId then applyTxPatch amount description date t else t },
         applyTxPatch amount description date old)

/-- `DELETE /transactions/:id`: ownership check, then deletion of the
row with that id. -/
def deleteTransaction (db : DB) (userId txId : Nat) :
    Except ApiError DB :=
  match db.transactions.find? (fun t => t.id == txId && t.userId == userId) with
  | none => .error (.notFound "Transaction not found")
  | some _ =>
    .ok { db with transactions := db.transactions.filter fun t => !(t.id == txId) }

/-- Does a route result carry a 400 validation error? -/
def isValidationError : Except ApiError α → Bool
  | .error (.validation _) => true
  | _ => false

/-- Well-formed store: ids are unique per table and every transaction
belongs to the same user as the saving it references.  Every state the
engine itself builds satisfies this (ids come from counters, and
`createTransaction` only attaches to a saving of the caller). -/
def WF (db : DB) : Prop :=
  (db.savings.map (fun s => s.id)).Nodup ∧
  (db.transactions.map (fun t => t.id)).Nodup ∧
  ∀ t ∈ db.transactions, ∀ s ∈ db.savings, t.savingId = s.id → t.userId = s.userId

instance : DecidablePred WF := fun db => by
  unfold WF
  infer_instance

/-- The savings rows owned by a user. -/
def savingsOf (db : DB) (u : Nat) : List Saving :=
  db.savings.filter fun s => s.userId == u

/-- The transaction rows owned by a user. -/
def txsOf (db : DB) (u : Nat) : List Transaction :=
  db.transactions.filter fun t => t.userId == u

end TabunganKita

namespace TabunganKita

/-! General list facts used by the isolation and cascade proofs. -/

theorem filter_map_eq_of_fix {α : Type} (l : List α) (f : α → α) (p : α → Bool)
    (h : ∀ a ∈ l, (p a = true → f a = a) ∧ (p a = false → p (f a) = false)) :
    (l.map f).filter p = l.filter p := by
  induction l with
  | nil => rfl
  | cons x xs ih =>
    have hx := h x (List.mem_cons_self x xs)
    have ihx := ih fun a ha => h a (List.mem_cons_of_mem x ha)
    simp only [List.map_cons, List.filter_cons]
    cases hp : p x with
    | true => rw [hx.1 hp]; simp [hp, ihx]
    | false => simp [hp, hx.2 hp, ihx]

theorem filter_filter_eq_of_imp {α : Type} (l : List α) (q p : α → Bool)
    (h : ∀ a ∈ l, p a = true → q a = true) :
    (l.filter q).filter p = l.filter p := by
  induction l with
  | nil => rfl
  | cons x xs ih =>
    have hx := h x (List.mem_cons_self x xs)
    have ihx := ih fun a ha => h a (List.mem_cons_of_mem x ha)
    cases hq : q x with
    | true => simp [List.filter_cons, hq, ihx]
    | false =>
      have hp' : p x = false := by
        cases hp : p x
        · rfl
        · exact absurd (hx hp) (by simp [hq])
      simp [List.filter_cons, hq, hp', ihx]

theorem mem_insertSorted {α : Type} (after : α → α → Bool) (x a : α) (l : List α) :
    a ∈ insertSorted after x l ↔ a = x ∨ a ∈ l := by
  induction l with
  | nil => simp [insertSorted]
  | cons y ys ih =>
    simp only [insertSorted]
    cases hxy : after x y with
    | true => simp only [hxy, if_true, List.mem_cons, ih]; try tauto
    | false => simp only [hxy, Bool.false_eq_true, if_false, List.mem_cons]; try tauto

theorem mem_sortRows {α : Type} (after : α → α → Bool) (a : α) (l : List α) :
    a ∈ sortRows after l ↔ a ∈ l := by
  induction l with
  | nil => simp [sortRows]
  | cons x xs ih =>
    simp only [sortRows, mem_insertSorted, List.mem_cons, ih]

end TabunganKita

namespace TabunganKita

/-- Characterization of every successful `upsertSaving`: the returned
row (which is also stored) carries exactly the derived fields of the
source: `availableAmount = income - target`,
`dailyBudget = availableAmount / days` with `days = 7` for weekly
periods and the calendar day count for monthly ones, the canonical
`weekNumber`, and the caller as owner; transactions are untouched. -/
theorem upsertSaving_ok_fields {db : DB} {userId : Nat} {req : SavingReq}
    {db' : DB} {s : Saving}
    (h : upsertSaving db userId req = .ok (db', s)) :
    s.userId = userId ∧
    s.monthlyIncome = req.monthlyIncome.getD 0 ∧
    s.savingTarget = req.savingTarget.getD 0 ∧
    s.availableAmount = req.monthlyIncome.getD 0 - req.savingTarget.getD 0 ∧
    s.dailyBudget = (req.monthlyIncome.getD 0 - req.savingTarget.getD 0) /
      (((if req.period.getD "monthly" == "weekly" then 7
         else daysInMonth (req.month.getD 0) (req.year.getD 0)) : Nat) : Rat) ∧
    s.period = req.period.getD "monthly" ∧
    s.month = req.month.getD 0 ∧
    s.year = req.year.getD 0 ∧
    s.weekNumber = (if req.period.getD "monthly" == "weekly"
                    then some (req.weekNumber.getD 0) else none) ∧
    s ∈ db'.savings ∧
    db'.transactions = db.transactions := by
  cases hper : (req.period.getD "monthly" == "weekly") with
  | true =>
    simp only [upsertSaving, hper, eq_self_iff_true, if_true] at h
    split at h
    · exact absurd h (by simp)
    split at h
    · exact absurd h (by simp)
    split at h
    · exact absurd h (by simp)
    split at h
    · exact absurd h (by simp)
    split at h
    · exact absurd h (by simp)
    split at h
    · exact absurd h (by simp)
    split at h
    · exact absurd h (by simp)
    split at h
    next s0 heq =>
      simp only [Except.ok.injEq, Prod.mk.injEq] at h
      obtain ⟨hdb, hs⟩ := h
      subst hdb
      subst hs
      have hp := List.find?_some heq
      simp only [Bool.and_eq_true, beq_iff_eq] at hp
      obtain ⟨⟨⟨hu, hm⟩, hy⟩, hwk⟩ := hp
      refine ⟨hu, rfl, rfl, rfl, by simp [hper], rfl, hm, hy, by simp [hper, hwk], ?_, rfl⟩
      exact List.mem_map.2 ⟨_, List.mem_of_find?_eq_some heq, by simp⟩
    next heq =>
      simp only [Except.ok.injEq, Prod.mk.injEq] at h
      obtain ⟨hdb, hs⟩ := h
      subst hdb
      subst hs
      refine ⟨rfl, rfl, rfl, rfl, by simp [hper], rfl, rfl, rfl, by simp [hper], by simp, rfl⟩
  | false =>
    simp only [upsertSaving, hper, Bool.false_eq_true, if_false] at h
    split at h
    · exact absurd h (by simp)
    split at h
    · exact absurd h (by simp)
    split at h
    · exact absurd h (by simp)
    split at h
    · exact absurd h (by simp)
    split at h
    · exact absurd h (by simp)
    split at h
    · exact absurd h (by simp)
    split at h
    next s0 heq =>
      simp only [Except.ok.injEq, Prod.mk.injEq] at h
      obtain ⟨hdb, hs⟩ := h
      subst hdb
      subst hs
      have hp := List.find?_some heq
      simp only [Bool.and_eq_true, beq_iff_eq] at hp
      obtain ⟨⟨⟨hu, hm⟩, hy⟩, hwk⟩ := hp
      refine ⟨hu, rfl, rfl, rfl, by simp [hper], rfl, hm, hy, by simp [hper, hwk], ?_, rfl⟩
      exact List.mem_map.2 ⟨_, List.mem_of_find?_eq_some heq, by simp⟩
    next heq =>
      simp only [Except.ok.injEq, Prod.mk.injEq] at h
      obtain ⟨hdb, hs⟩ := h
      subst hdb
      subst hs
      refine ⟨rfl, rfl, rfl, rfl, by simp [hper], rfl, rfl, rfl, by simp [hper], by simp, rfl⟩

end TabunganKita

namespace TabunganKita

/-! Concrete fixtures used by witnesses and counterexamples. -/

/-- An empty store. -/
def emptyDB : DB := { savings := [], transactions := [], nextSavingId := 1, nextTxId := 1 }

/-- A valid monthly upsert request: income 10, target 3, January 2025. -/
def reqM : SavingReq :=
  { monthlyIncome := some 10, savingTarget := some 3, month := some 1, year := some 2025 }

/-- The saving row `upsertSaving emptyDB 1 reqM` creates. -/
def savM : Saving :=
  { id := 1, userId := 1, monthlyIncome := 10, savingTarget := 3, availableAmount := 7,
    dailyBudget := 7/31, period := "monthly", month := 1, year := 2025, weekNumber := none }

/-- The store after `upsertSaving emptyDB 1 reqM`. -/
def dbM : DB := { savings := [savM], transactions := [], nextSavingId := 2, nextTxId := 1 }

/-- **C5**: for every accepted upsert input, the stored period's derived
fields satisfy `availableAmount = incomeAmount - targetAmount` and
`dailyAllowance = availableAmount / dayCount`, where `dayCount` is 7 for
a weekly period and the exact calendar day count of `(month, year)` -
leap years included via `daysInMonth` - otherwise. -/
theorem upsert_derived_fields {db : DB} {userId : Nat} {req : SavingReq}
    {db' : DB} {s : Saving}
    (h : upsertSaving db userId req = .ok (db', s)) :
    s ∈ db'.savings ∧
    s.availableAmount = req.monthlyIncome.getD 0 - req.savingTarget.getD 0 ∧
    s.dailyBudget = s.availableAmount /
      (((if req.period.getD "monthly" == "weekly" then 7
         else daysInMonth (req.month.getD 0) (req.year.getD 0)) : Nat) : Rat) := by
  obtain ⟨-, -, -, ha, hd, -, -, -, -, hmem, -⟩ := upsertSaving_ok_fields h
  exact ⟨hmem, ha, by rw [hd, ha]⟩

/-- Witness for the C5 theorem at a concrete accepted input. -/
theorem upsert_derived_fields_witness :
    upsertSaving emptyDB 1 reqM = .ok (dbM, savM) ∧
    savM ∈ dbM.savings ∧
    savM.availableAmount = reqM.monthlyIncome.getD 0 - reqM.savingTarget.getD 0 ∧
    savM.dailyBudget = savM.availableAmount /
      (((if reqM.period.getD "monthly" == "weekly" then 7
         else daysInMonth (reqM.month.getD 0) (reqM.year.getD 0)) : Nat) : Rat) := by
  have h : upsertSaving emptyDB 1 reqM = .ok (dbM, savM) := by
    norm_num [upsertSaving, emptyDB, reqM, dbM, savM, truthyNum, truthyInt,
      daysInMonth, isLeapYear, (show ¬("monthly" = "weekly") by decide)]
  exact ⟨h, upsert_derived_fields h⟩

/-- **C10**: when the period kind is monthly (explicitly or by default),
the upsert ignores any supplied `weekNumber` - the outcome equals the
outcome with the field absent - and the written row has
`weekNumber = null`. -/
theorem monthly_upsert_ignores_weekNumber {db : DB} {userId : Nat}
    {req : SavingReq} (hmon : req.period.getD "monthly" ≠ "weekly") :
    (∀ w : Option Int,
      upsertSaving db userId { req with weekNumber := w } = upsertSaving db userId req) ∧
    ∀ db' s, upsertSaving db userId req = .ok (db', s) → s.weekNumber = none := by
  have hper : (req.period.getD "monthly" == "weekly") = false := by
    simpa using hmon
  refine ⟨fun w => ?_, fun db' s h => ?_⟩
  · obtain ⟨mi, st, p, m, y, wn⟩ := req
    simp only [upsertSaving, hper, Bool.false_eq_true, if_false] at *
  · obtain ⟨-, -, -, -, -, -, -, -, hw, -, -⟩ := upsertSaving_ok_fields h
    rw [hw]
    simp [hper]

/-- Witness for the C10 theorem at a concrete input. -/
theorem monthly_upsert_ignores_weekNumber_witness :
    reqM.period.getD "monthly" ≠ "weekly" ∧
    upsertSaving emptyDB 1 { reqM with weekNumber := some 5 } = upsertSaving emptyDB 1 reqM :=
  ⟨by decide, (@monthly_upsert_ignores_weekNumber emptyDB 1 reqM (by decide)).1 (some 5)⟩

end TabunganKita

namespace TabunganKita

set_option maxHeartbeats 1000000 in
/-- **C2** (amended): `upsertSaving` raises a `ValidationError` exactly
when `incomeAmount` or `targetAmount` is missing **or zero** (the
source's JS truthiness check `!monthlyIncome || !savingTarget` treats a
supplied `0` as missing), or `incomeAmount <= 0`, or `targetAmount < 0`,
or `targetAmount >= incomeAmount`, or `month` or `year` is missing or
zero, or `month` lies outside `[1, 12]`, or the period is weekly and
`weekNumber` is missing or zero.  In particular the accepted target
range is `0 < targetAmount < incomeAmount`, not
`0 <= targetAmount < incomeAmount` as the claim states. -/
theorem upsert_validation_iff (db : DB) (userId : Nat) (req : SavingReq) :
    isValidationError (upsertSaving db userId req) = true ↔
      (truthyNum req.monthlyIncome = false ∨ truthyNum req.savingTarget = false ∨
       req.monthlyIncome.getD 0 ≤ 0 ∨ req.savingTarget.getD 0 < 0 ∨
       req.savingTarget.getD 0 ≥ req.monthlyIncome.getD 0 ∨
       truthyInt req.month = false ∨ truthyInt req.year = false ∨
       req.month.getD 0 < 1 ∨ req.month.getD 0 > 12 ∨
       (req.period.getD "monthly" = "weekly" ∧ truthyInt req.weekNumber = false)) := by
  cases hper : (req.period.getD "monthly" == "weekly") with
  | true =>
    have hper' : req.period.getD "monthly" = "weekly" := by simpa using hper
    simp only [upsertSaving, hper, eq_self_iff_true, if_true]
    split
    next hc =>
      simp only [isValidationError, true_iff]
      simp only [Bool.or_eq_true, Bool.not_eq_true'] at hc
      tauto
    next hc =>
      split
      next hc2 =>
        simp only [isValidationError, true_iff]
        tauto
      next hc2 =>
        split
        next hc3 =>
          simp only [isValidationError, true_iff]
          tauto
        next hc3 =>
          split
          next hc4 =>
            simp only [isValidationError, true_iff]
            tauto
          next hc4 =>
            split
            next hc5 =>
              simp only [isValidationError, true_iff]
              simp only [Bool.or_eq_true, Bool.not_eq_true'] at hc5
              tauto
            next hc5 =>
              split
              next hc6 =>
                simp only [isValidationError, true_iff]
                simp only [Bool.or_eq_true, decide_eq_true_eq] at hc6
                tauto
              next hc6 =>
                split
                next hc7 =>
                  simp only [isValidationError, true_iff]
                  simp only [Bool.not_eq_true'] at hc7
                  tauto
                next hc7 =>
                  simp only [Bool.or_eq_true, Bool.not_eq_true'] at hc hc5
                  simp only [Bool.or_eq_true, decide_eq_true_eq] at hc6
                  simp only [Bool.not_eq_true'] at hc7
                  split
                  all_goals
                    simp only [isValidationError, Bool.false_eq_true, false_iff, not_or]
                    push_neg at hc hc2 hc3 hc4 hc5 hc6 ⊢
                    refine ⟨?_, ?_, hc2, hc3, hc4, ?_, ?_, hc6.1, hc6.2, ?_⟩
                  all_goals try simp [hc.1]
                  all_goals try simp [hc.2]
                  all_goals try simp [hc5.1]
                  all_goals try simp [hc5.2]
                  all_goals intro h
                  all_goals simp [hc7]
  | false =>
    have hper' : req.period.getD "monthly" ≠ "weekly" := by simpa using hper
    simp only [upsertSaving, hper, Bool.false_eq_true, if_false]
    split
    next hc =>
      simp only [isValidationError, true_iff]
      simp only [Bool.or_eq_true, Bool.not_eq_true'] at hc
      tauto
    next hc =>
      split
      next hc2 =>
        simp only [isValidationError, true_iff]
        tauto
      next hc2 =>
        split
        next hc3 =>
          simp only [isValidationError, true_iff]
          tauto
        next hc3 =>
          split
          next hc4 =>
            simp only [isValidationError, true_iff]
            tauto
          next hc4 =>
            split
            next hc5 =>
              simp only [isValidationError, true_iff]
              simp only [Bool.or_eq_true, Bool.not_eq_true'] at hc5
              tauto
            next hc5 =>
              split
              next hc6 =>
                simp only [isValidationError, true_iff]
                simp only [Bool.or_eq_true, decide_eq_true_eq] at hc6
                tauto
              next hc6 =>
                simp only [Bool.or_eq_true, Bool.not_eq_true'] at hc hc5
                simp only [Bool.or_eq_true, decide_eq_true_eq] at hc6
                split
                all_goals
                  simp only [isValidationError, Bool.false_eq_true, false_iff, not_or]
                  push_neg at hc hc2 hc3 hc4 hc5 hc6 ⊢
                  refine ⟨?_, ?_, hc2, hc3, hc4, ?_, ?_, hc6.1, hc6.2, ?_⟩
                all_goals try simp [hc.1]
                all_goals try simp [hc.2]
                all_goals try simp [hc5.1]
                all_goals try simp [hc5.2]
                all_goals intro h
                all_goals exact absurd h hper'

end TabunganKita

namespace TabunganKita

/-- A request with a positive income and an explicitly supplied target
of `0` (plus a valid month and year). -/
def reqZeroTarget : SavingReq :=
  { monthlyIncome := some 100, savingTarget := some 0, month := some 1, year := some 2025 }

/-- **C2** counterexample: `targetAmount = 0` with `incomeAmount = 100`
and a valid month/year satisfies the claim's acceptance condition
`incomeAmount > 0 ∧ 0 <= targetAmount < incomeAmount`, yet the engine
raises a `ValidationError`: the JS falsiness check counts the zero
target as missing. -/
theorem upsert_rejects_zero_target_cex :
    0 ≤ reqZeroTarget.savingTarget.getD 0 ∧
    reqZeroTarget.savingTarget.getD 0 < reqZeroTarget.monthlyIncome.getD 0 ∧
    0 < reqZeroTarget.monthlyIncome.getD 0 ∧
    upsertSaving emptyDB 1 reqZeroTarget =
      .error (.validation "Monthly income and saving target are required") := by
  refine ⟨by norm_num [reqZeroTarget], by norm_num [reqZeroTarget],
    by norm_num [reqZeroTarget], ?_⟩
  norm_num [upsertSaving, reqZeroTarget, truthyNum]

/-- A saving of user 1 with `dailyBudget = 5`. -/
def savL : Saving :=
  { id := 1, userId := 1, monthlyIncome := 160, savingTarget := 5, availableAmount := 155,
    dailyBudget := 5, period := "monthly", month := 1, year := 2025, weekNumber := none }

/-- A transaction of user 1 against `savL`. -/
def txOf (i : Nat) (amt : Rat) (time day : Nat) : Transaction :=
  { id := i, userId := 1, savingId := 1, amount := amt, type := "expense",
    description := "", date := { time := time, day := day } }

/-- A store holding `savL` and one transaction of amount 5. -/
def dbOneTx : DB :=
  { savings := [savL], transactions := [txOf 1 5 100 1], nextSavingId := 2, nextTxId := 2 }

/-- Every stored amount is strictly positive (boolean form). -/
def allPositive (l : List Transaction) : Bool :=
  l.all fun t => decide (0 < t.amount)

/-- **C3** (amended): `createTransaction` rejects a missing, zero or
negative amount with a `ValidationError` and only ever appends a
transaction of strictly positive amount; `updateTransaction`, however,
applies any truthy (non-zero) patched amount without validation, so it
preserves positivity of the stored amounts only under the extra
assumption that a truthy patched amount is positive - a negative patch
breaks the invariant (see the counterexample). -/
theorem transaction_amount_positivity :
    (∀ (db : DB) (userId : Nat) (req : TxCreateReq) (now : DateV),
      truthyNum req.amount = false ∨ req.amount.getD 0 ≤ 0 →
      isValidationError (createTransaction db userId req now) = true) ∧
    (∀ (db : DB) (userId : Nat) (req : TxCreateReq) (now : DateV) (db' : DB) (tx : Transaction),
      createTransaction db userId req now = .ok (db', tx) →
      0 < tx.amount ∧ db'.transactions = db.transactions ++ [tx]) ∧
    (∀ (db : DB) (userId txId : Nat) (amount : Option Rat) (description : Option String)
      (date : Option DateV) (db' : DB) (tx' : Transaction),
      allPositive db.transactions = true →
      (truthyNum amount = true → 0 < amount.getD 0) →
      updateTransaction db userId txId amount description date = .ok (db', tx') →
      allPositive db'.transactions = true) := by
  refine ⟨?_, ?_, ?_⟩
  · intro db userId req now h
    simp only [createTransaction]
    split
    · rfl
    next hc =>
      split
      · rfl
      next hc2 =>
        simp only [Bool.or_eq_true, Bool.not_eq_true'] at hc
        push_neg at hc
        rcases h with h | h
        · exact absurd h hc.1
        · exact absurd h hc2
  · intro db userId req now db' tx h
    simp only [createTransaction] at h
    split at h
    · exact absurd h (by simp)
    next hc =>
      split at h
      · exact absurd h (by simp)
      next hc2 =>
        split at h
        · exact absurd h (by simp)
        next s0 heq =>
          simp only [Except.ok.injEq, Prod.mk.injEq] at h
          obtain ⟨hdb, htx⟩ := h
          subst hdb
          subst htx
          exact ⟨lt_of_not_le hc2, rfl⟩
  · intro db userId txId amount description date db' tx' hall hpos h
    simp only [updateTransaction] at h
    split at h
    · exact absurd h (by simp)
    next old heq =>
      simp only [Except.ok.injEq, Prod.mk.injEq] at h
      obtain ⟨hdb, htx⟩ := h
      subst hdb
      subst htx
      simp only [allPositive, List.all_eq_true, decide_eq_true_eq] at hall ⊢
      intro t ht
      obtain ⟨u, hu, hut⟩ := List.mem_map.1 ht
      by_cases hid : (u.id == txId) = true
      · rw [if_pos hid] at hut
        subst hut
        simp only [applyTxPatch]
        by_cases htr : truthyNum amount = true
        · simpa [htr] using hpos htr
        · have : truthyNum amount = false := by simpa using htr
          simpa [this] using hall u hu
      · rw [if_neg hid] at hut
        subst hut
        exact hall u hu

/-- The transaction after patching the amount to 2. -/
def txUpd : Transaction := txOf 1 2 100 1

/-- The store after the positive-amount update. -/
def dbOneTxUpd : DB :=
  { savings := [savL], transactions := [txUpd], nextSavingId := 2, nextTxId := 2 }

/-- Witness for the C3 theorem: a positive-amount update on a store of
positive amounts keeps every stored amount positive. -/
theorem transaction_amount_positivity_witness :
    allPositive dbOneTx.transactions = true ∧
    (truthyNum (some 2) = true → 0 < ((some (2 : Rat)).getD 0)) ∧
    updateTransaction dbOneTx 1 1 (some 2) none none = .ok (dbOneTxUpd, txUpd) ∧
    allPositive dbOneTxUpd.transactions = true := by
  have h1 : allPositive dbOneTx.transactions = true := by
    norm_num [allPositive, dbOneTx, txOf]
  have h2 : truthyNum (some 2) = true → 0 < ((some (2 : Rat)).getD 0) := fun _ => by norm_num
  have h3 : updateTransaction dbOneTx 1 1 (some 2) none none = .ok (dbOneTxUpd, txUpd) := by
    norm_num [updateTransaction, applyTxPatch, dbOneTx, dbOneTxUpd, txUpd, txOf,
      truthyNum, List.find?]
  exact ⟨h1, h2, h3, transaction_amount_positivity.2.2 _ _ _ _ _ _ _ _ h1 h2 h3⟩

/-- The transaction after patching the amount to -5. -/
def txNeg : Transaction := txOf 1 (-5) 100 1

/-- The store after the negative-amount update. -/
def dbOneTxNeg : DB :=
  { savings := [savL], transactions := [txNeg], nextSavingId := 2, nextTxId := 2 }

/-- **C3** counterexample: updating a stored transaction of amount 5
with the patch `{amount: -5}` succeeds and stores the negative amount:
`updateTransaction` has no positivity validation, so the invariant
claimed for every ledger operation does not survive updates. -/
theorem updateTransaction_negative_amount_cex :
    0 < (txOf 1 5 100 1).amount ∧
    (txOf 1 5 100 1) ∈ dbOneTx.transactions ∧
    updateTransaction dbOneTx 1 1 (some (-5)) none none = .ok (dbOneTxNeg, txNeg) ∧
    txNeg ∈ dbOneTxNeg.transactions ∧
    txNeg.amount < 0 := by
  refine ⟨by norm_num [txOf], by simp [dbOneTx], ?_, by simp [dbOneTxNeg], by norm_num [txNeg, txOf]⟩
  norm_num [updateTransaction, applyTxPatch, dbOneTx, dbOneTxNeg, txNeg, txOf,
    truthyNum, List.find?]

end TabunganKita

namespace TabunganKita

/-- **C4** (amended): a successful `updateTransaction` stores and
returns the found row with the conditional-spread patch applied:
`amount` is changed only when present **and truthy** (a supplied `0` is
skipped), `description` whenever present, `date` only when present;
every field absent from the patch - and the identity fields - keeps its
prior value, and rows with a different id are untouched. -/
theorem updateTransaction_patch_semantics {db : DB} {u txId : Nat}
    {amount : Option Rat} {description : Option String} {date : Option DateV}
    {old : Transaction}
    (hfind : db.transactions.find? (fun t => t.id == txId && t.userId == u) = some old) :
    updateTransaction db u txId amount description date =
      .ok ({ db with transactions := db.transactions.map fun t =>
              if t.id == txId then applyTxPatch amount description date t else t },
           applyTxPatch amount description date old) ∧
    (applyTxPatch amount description date old).amount =
      (if truthyNum amount then amount.getD 0 else old.amount) ∧
    (applyTxPatch amount description date old).description = description.getD old.description ∧
    (applyTxPatch amount description date old).date = date.getD old.date ∧
    (applyTxPatch amount description date old).id = old.id ∧
    (applyTxPatch amount description date old).userId = old.userId ∧
    (applyTxPatch amount description date old).savingId = old.savingId ∧
    (applyTxPatch amount description date old).type = old.type ∧
    (amount = none → (applyTxPatch amount description date old).amount = old.amount) ∧
    (description = none →
      (applyTxPatch amount description date old).description = old.description) ∧
    (date = none → (applyTxPatch amount description date old).date = old.date) ∧
    ∀ t ∈ db.transactions, t.id ≠ txId →
      t ∈ (db.transactions.map fun t =>
            if t.id == txId then applyTxPatch amount description date t else t) := by
  refine ⟨?_, rfl, rfl, rfl, rfl, rfl, rfl, rfl, ?_, ?_, ?_, ?_⟩
  · simp only [updateTransaction, hfind]
  · intro h
    simp [applyTxPatch, h, truthyNum]
  · intro h
    simp [applyTxPatch, h]
  · intro h
    simp [applyTxPatch, h]
  · intro t ht hid
    refine List.mem_map.2 ⟨t, ht, ?_⟩
    rw [if_neg (by simpa using hid)]

/-- Witness for the C4 theorem: a patch carrying only a description is
applied to exactly that field of the stored row. -/
theorem updateTransaction_patch_semantics_witness :
    dbOneTx.transactions.find? (fun t => t.id == 1 && t.userId == 1) = some (txOf 1 5 100 1) ∧
    updateTransaction dbOneTx 1 1 none (some "coffee") none =
      .ok ({ dbOneTx with transactions := dbOneTx.transactions.map fun t =>
              if t.id == 1 then applyTxPatch none (some "coffee") none t else t },
           applyTxPatch none (some "coffee") none (txOf 1 5 100 1)) ∧
    (applyTxPatch none (some "coffee") none (txOf 1 5 100 1)).amount =
      (if truthyNum none then (none : Option Rat).getD 0 else (txOf 1 5 100 1).amount) ∧
    (applyTxPatch none (some "coffee") none (txOf 1 5 100 1)).description =
      (some "coffee").getD (txOf 1 5 100 1).description := by
  have hfind : dbOneTx.transactions.find? (fun t => t.id == 1 && t.userId == 1) =
      some (txOf 1 5 100 1) := by
    simp [dbOneTx, txOf, List.find?]
  have h := @updateTransaction_patch_semantics dbOneTx 1 1 none (some "coffee") none
    (txOf 1 5 100 1) hfind
  exact ⟨hfind, h.1, h.2.1, h.2.2.1⟩

/-- **C4** counterexample: the patch `{amount: 0}` carries the `amount`
field, yet the conditional spread `...(amount && {...})` skips the falsy
value `0`: the stored amount stays 5 instead of being set to 0, so a
present field is not always applied. -/
theorem updateTransaction_zero_amount_ignored_cex :
    updateTransaction dbOneTx 1 1 (some 0) none none = .ok (dbOneTx, txOf 1 5 100 1) ∧
    (txOf 1 5 100 1).amount = 5 ∧
    (5 : Rat) ≠ 0 := by
  refine ⟨?_, by norm_num [txOf], by norm_num⟩
  norm_num [updateTransaction, applyTxPatch, dbOneTx, txOf, truthyNum, List.find?]

end TabunganKita

namespace TabunganKita

/-- A ledger with three transactions of amounts 10, 20, 30, created in
that order on day 1 of the month with strictly increasing timestamps,
against a saving with `dailyBudget = 5`. -/
def dbLedger3 : DB :=
  { savings := [savL],
    transactions := [txOf 1 10 100 1, txOf 2 20 200 1, txOf 3 30 300 1],
    nextSavingId := 2, nextTxId := 4 }

/-- **C1** (code bug): on the failing input - amounts `[10, 20, 30]` in
chronological order, all on day 1, `dailyAllowance = 5` - the route
returns the transactions oldest-first but with running totals
`[60, 50, 30]` and differences `[-55, -45, -25]`: the `map` accumulates
`runningTotal` over the **newest-first fetched order** and only then
reverses, so each row carries the sum of itself and all *later*
transactions (a suffix sum) instead of the claimed chronological prefix
sums `[10, 30, 60]`. -/
theorem listTransactions_running_totals_bug :
    (listTransactionsForSaving dbLedger3 1 1).map
        (fun l => l.map fun v => (v.tx.id, v.runningTotal, v.expectedSpent, v.difference)) =
      .ok [(1, 60, 5, -55), (2, 50, 5, -45), (3, 30, 5, -25)] ∧
    [(60 : Rat), 50, 30] ≠ [10, 30, 60] := by
  constructor
  · norm_num [listTransactionsForSaving, dbLedger3, savL, txOf, sortRows, insertSorted,
      byDateDesc, addRunningTotals, List.find?, List.filter, Except.map, List.map]
  · intro h
    simp only [List.cons.injEq] at h
    exact absurd h.1 (by norm_num)

end TabunganKita

namespace TabunganKita

/-- Shape of a successful **monthly** upsert: either no row matched the
canonical key `(userId, month, year, weekNumber = null)` and the new row
was appended with the next id, or the first matching row was updated in
place (same id, `List.map` on the id). -/
theorem upsertSaving_monthly_ok {db : DB} {u : Nat} {req : SavingReq}
    {db1 : DB} {s1 : Saving}
    (hper : req.period.getD "monthly" ≠ "weekly")
    (h : upsertSaving db u req = .ok (db1, s1)) :
    (db.savings.find? (fun s => s.userId == u && s.month == req.month.getD 0 &&
        s.year == req.year.getD 0 && s.weekNumber == none) = none ∧
      s1.id = db.nextSavingId ∧ db1.savings = db.savings ++ [s1]) ∨
    (∃ s0, db.savings.find? (fun s => s.userId == u && s.month == req.month.getD 0 &&
        s.year == req.year.getD 0 && s.weekNumber == none) = some s0 ∧
      s1.id = s0.id ∧
      db1.savings = db.savings.map fun t => if t.id == s0.id then s1 else t) := by
  have hper' : (req.period.getD "monthly" == "weekly") = false := by simpa using hper
  simp only [upsertSaving, hper', Bool.false_eq_true, if_false] at h
  split at h
  · exact absurd h (by simp)
  split at h
  · exact absurd h (by simp)
  split at h
  · exact absurd h (by simp)
  split at h
  · exact absurd h (by simp)
  split at h
  · exact absurd h (by simp)
  split at h
  · exact absurd h (by simp)
  split at h
  next s0 heq =>
    simp only [Except.ok.injEq, Prod.mk.injEq] at h
    obtain ⟨hdb, hs⟩ := h
    subst hdb
    subst hs
    exact Or.inr ⟨s0, heq, rfl, rfl⟩
  next heq =>
    simp only [Except.ok.injEq, Prod.mk.injEq] at h
    obtain ⟨hdb, hs⟩ := h
    subst hdb
    subst hs
    exact Or.inl ⟨heq, rfl, rfl⟩

/-- Shape of a successful **weekly** upsert: the Prisma `upsert` keyed
on the full unique tuple either updates the matching row in place or
creates a fresh row with the next id. -/
theorem upsertSaving_weekly_ok {db : DB} {u : Nat} {req : SavingReq}
    {db1 : DB} {s1 : Saving}
    (hper : req.period.getD "monthly" = "weekly")
    (h : upsertSaving db u req = .ok (db1, s1)) :
    (db.savings.find? (fun s => s.userId == u && s.month == req.month.getD 0 &&
        s.year == req.year.getD 0 && s.weekNumber == some (req.weekNumber.getD 0)) = none ∧
      s1.id = db.nextSavingId ∧ db1.savings = db.savings ++ [s1]) ∨
    (∃ s0, db.savings.find? (fun s => s.userId == u && s.month == req.month.getD 0 &&
        s.year == req.year.getD 0 && s.weekNumber == some (req.weekNumber.getD 0)) = some s0 ∧
      s1.id = s0.id ∧
      db1.savings = db.savings.map fun t => if t.id == s0.id then s1 else t) := by
  have hper' : (req.period.getD "monthly" == "weekly") = true := by simpa using hper
  simp only [upsertSaving, hper', eq_self_iff_true, if_true] at h
  split at h
  · exact absurd h (by simp)
  split at h
  · exact absurd h (by simp)
  split at h
  · exact absurd h (by simp)
  split at h
  · exact absurd h (by simp)
  split at h
  · exact absurd h (by simp)
  split at h
  · exact absurd h (by simp)
  split at h
  · exact absurd h (by simp)
  split at h
  next s0 heq =>
    simp only [Except.ok.injEq, Prod.mk.injEq] at h
    obtain ⟨hdb, hs⟩ := h
    subst hdb
    subst hs
    exact Or.inr ⟨s0, heq, rfl, rfl⟩
  next heq =>
    simp only [Except.ok.injEq, Prod.mk.injEq] at h
    obtain ⟨hdb, hs⟩ := h
    subst hdb
    subst hs
    exact Or.inl ⟨heq, rfl, rfl⟩

end TabunganKita

namespace TabunganKita

/-- **C6**: under sequential calls the upsert never duplicates a
uniqueness key: after a monthly upsert created its row, a second monthly
upsert for the same `(userId, month, year)` updates that row in place
(same id, same row count, still `weekNumber = null`); after a weekly
upsert created its row, a second weekly upsert for the same
`(userId, month, year, weekNumber)` with any (possibly different)
income updates the single existing row; and repeating an upsert with
identical inputs reproduces identical derived fields. -/
theorem upsert_uniqueness_sequential :
    (∀ (db : DB) (u : Nat) (req1 req2 : SavingReq) (db1 db2 : DB) (s1 s2 : Saving),
      req1.period.getD "monthly" ≠ "weekly" →
      req2.period.getD "monthly" ≠ "weekly" →
      req2.month = req1.month → req2.year = req1.year →
      db.savings.find? (fun s => s.userId == u && s.month == req1.month.getD 0 &&
        s.year == req1.year.getD 0 && s.weekNumber == none) = none →
      upsertSaving db u req1 = .ok (db1, s1) →
      upsertSaving db1 u req2 = .ok (db2, s2) →
      s2.id = s1.id ∧ db2.savings.length = db1.savings.length ∧ s2.weekNumber = none) ∧
    (∀ (db : DB) (u : Nat) (req1 req2 : SavingReq) (db1 db2 : DB) (s1 s2 : Saving),
      req1.period.getD "monthly" = "weekly" →
      req2.period.getD "monthly" = "weekly" →
      req2.month = req1.month → req2.year = req1.year →
      req2.weekNumber = req1.weekNumber →
      db.savings.find? (fun s => s.userId == u && s.month == req1.month.getD 0 &&
        s.year == req1.year.getD 0 && s.weekNumber == some (req1.weekNumber.getD 0)) = none →
      upsertSaving db u req1 = .ok (db1, s1) →
      upsertSaving db1 u req2 = .ok (db2, s2) →
      s2.id = s1.id ∧ db2.savings.length = db1.savings.length ∧
      s2.monthlyIncome = req2.monthlyIncome.getD 0) ∧
    (∀ (db : DB) (u : Nat) (req : SavingReq) (db1 db2 : DB) (s1 s2 : Saving),
      upsertSaving db u req = .ok (db1, s1) →
      upsertSaving db1 u req = .ok (db2, s2) →
      s2.monthlyIncome = s1.monthlyIncome ∧ s2.savingTarget = s1.savingTarget ∧
      s2.availableAmount = s1.availableAmount ∧ s2.dailyBudget = s1.dailyBudget) := by
  refine ⟨?_, ?_, ?_⟩
  · intro db u req1 req2 db1 db2 s1 s2 hm1 hm2 hmm hyy hfind h1 h2
    obtain ⟨hu1, -, -, -, -, -, hm1f, hy1f, hw1f, -, -⟩ := upsertSaving_ok_fields h1
    have hw1f' : s1.weekNumber = none := by
      rw [hw1f]
      simp [show (req1.period.getD "monthly" == "weekly") = false by simpa using hm1]
    rcases upsertSaving_monthly_ok hm1 h1 with ⟨-, -, happ⟩ | ⟨s0, hsome, -, -⟩
    · have hpred : (fun s : Saving => s.userId == u && s.month == req2.month.getD 0 &&
          s.year == req2.year.getD 0 && s.weekNumber == none) =
          (fun s : Saving => s.userId == u && s.month == req1.month.getD 0 &&
          s.year == req1.year.getD 0 && s.weekNumber == none) := by
        rw [hmm, hyy]
      have hfind1 : db1.savings.find? (fun s => s.userId == u && s.month == req2.month.getD 0 &&
          s.year == req2.year.getD 0 && s.weekNumber == none) = some s1 := by
        rw [happ, hpred, List.find?_append, hfind]
        simp [List.find?, hu1, hm1f, hy1f, hw1f']
      rcases upsertSaving_monthly_ok hm2 h2 with ⟨hnone, -, -⟩ | ⟨s0', hsome', hid', hmap'⟩
      · rw [hfind1] at hnone
        exact absurd hnone (by simp)
      · rw [hfind1] at hsome'
        obtain rfl : s0' = s1 := by
          injection hsome' with hh
          exact hh.symm
        refine ⟨hid', by rw [hmap', List.length_map], ?_⟩
        obtain ⟨-, -, -, -, -, -, -, -, hw2f, -, -⟩ := upsertSaving_ok_fields h2
        rw [hw2f]
        simp [show (req2.period.getD "monthly" == "weekly") = false by simpa using hm2]
    · rw [hsome] at hfind
      exact absurd hfind (by simp)
  · intro db u req1 req2 db1 db2 s1 s2 hw1 hw2 hmm hyy hww hfind h1 h2
    obtain ⟨hu1, -, -, -, -, -, hm1f, hy1f, hw1f, -, -⟩ := upsertSaving_ok_fields h1
    have hw1f' : s1.weekNumber = some (req1.weekNumber.getD 0) := by
      rw [hw1f]
      simp [show (req1.period.getD "monthly" == "weekly") = true by simpa using hw1]
    rcases upsertSaving_weekly_ok hw1 h1 with ⟨-, -, happ⟩ | ⟨s0, hsome, -, -⟩
    · have hpred : (fun s : Saving => s.userId == u && s.month == req2.month.getD 0 &&
          s.year == req2.year.getD 0 && s.weekNumber == some (req2.weekNumber.getD 0)) =
          (fun s : Saving => s.userId == u && s.month == req1.month.getD 0 &&
          s.year == req1.year.getD 0 && s.weekNumber == some (req1.weekNumber.getD 0)) := by
        rw [hmm, hyy, hww]
      have hfind1 : db1.savings.find? (fun s => s.userId == u && s.month == req2.month.getD 0 &&
          s.year == req2.year.getD 0 && s.weekNumber == some (req2.weekNumber.getD 0)) =
          some s1 := by
        rw [happ, hpred, List.find?_append, hfind]
        simp [List.find?, hu1, hm1f, hy1f, hw1f']
      rcases upsertSaving_weekly_ok hw2 h2 with ⟨hnone, -, -⟩ | ⟨s0', hsome', hid', hmap'⟩
      · rw [hfind1] at hnone
        exact absurd hnone (by simp)
      · rw [hfind1] at hsome'
        obtain rfl : s0' = s1 := by
          injection hsome' with hh
          exact hh.symm
        obtain ⟨-, hi2, -, -, -, -, -, -, -, -, -⟩ := upsertSaving_ok_fields h2
        exact ⟨hid', by rw [hmap', List.length_map], hi2⟩
    · rw [hsome] at hfind
      exact absurd hfind (by simp)
  · intro db u req db1 db2 s1 s2 h1 h2
    obtain ⟨-, hi1, ht1, ha1, hd1, -, -, -, -, -, -⟩ := upsertSaving_ok_fields h1
    obtain ⟨-, hi2, ht2, ha2, hd2, -, -, -, -, -, -⟩ := upsertSaving_ok_fields h2
    refine ⟨by rw [hi1, hi2], by rw [ht1, ht2], by rw [ha1, ha2], by rw [hd1, hd2]⟩

/-- The second monthly request for the same slot: different income. -/
def reqM2 : SavingReq :=
  { monthlyIncome := some 20, savingTarget := some 4, month := some 1, year := some 2025 }

/-- The row `savM` after being updated by `reqM2`. -/
def savM2 : Saving :=
  { id := 1, userId := 1, monthlyIncome := 20, savingTarget := 4, availableAmount := 16,
    dailyBudget := 16/31, period := "monthly", month := 1, year := 2025, weekNumber := none }

/-- The store after the second monthly upsert: still a single row. -/
def dbM2 : DB := { savings := [savM2], transactions := [], nextSavingId := 2, nextTxId := 1 }

/-- Witness for the C6 theorem: a concrete pair of sequential monthly
upserts for the same `(user, month, year)`. -/
theorem upsert_uniqueness_sequential_witness :
    reqM.period.getD "monthly" ≠ "weekly" ∧
    reqM2.period.getD "monthly" ≠ "weekly" ∧
    reqM2.month = reqM.month ∧ reqM2.year = reqM.year ∧
    emptyDB.savings.find? (fun s => s.userId == 1 && s.month == reqM.month.getD 0 &&
      s.year == reqM.year.getD 0 && s.weekNumber == none) = none ∧
    upsertSaving emptyDB 1 reqM = .ok (dbM, savM) ∧
    upsertSaving dbM 1 reqM2 = .ok (dbM2, savM2) ∧
    savM2.id = savM.id ∧ dbM2.savings.length = dbM.savings.length ∧ savM2.weekNumber = none := by
  have h1 : upsertSaving emptyDB 1 reqM = .ok (dbM, savM) := by
    norm_num [upsertSaving, emptyDB, reqM, dbM, savM, truthyNum, truthyInt,
      daysInMonth, isLeapYear, (show ¬("monthly" = "weekly") by decide)]
  have h2 : upsertSaving dbM 1 reqM2 = .ok (dbM2, savM2) := by
    norm_num [upsertSaving, dbM, savM, reqM2, dbM2, savM2, truthyNum, truthyInt,
      daysInMonth, isLeapYear, List.find?, (show ¬("monthly" = "weekly") by decide)]
  have hcon := upsert_uniqueness_sequential.1 emptyDB 1 reqM reqM2 dbM dbM2 savM savM2
    (by decide) (by decide) rfl rfl rfl h1 h2
  exact ⟨by decide, by decide, rfl, rfl, rfl, h1, h2, hcon.1, hcon.2.1, hcon.2.2⟩

end TabunganKita

namespace TabunganKita

/-- **C7**: the safe deletion path on an owned saving blocks with a
`Conflict` reporting the exact number of dependent transactions whenever
at least one exists (an error result: no state is produced, so the
period row and its transactions persist unchanged); with zero dependent
transactions it removes exactly the rows with the period's id and
touches nothing else - transactions stay identical and every other
saving row survives. -/
theorem deleteSaving_guard {db : DB} {u sid : Nat} {s : Saving}
    (hfind : db.savings.find? (fun x => x.id == sid && x.userId == u) = some s) :
    ((db.transactions.filter fun t => t.savingId == sid) ≠ [] →
      deleteSaving db u sid =
        .error (.conflict "Cannot delete saving with existing transactions"
          (db.transactions.filter fun t => t.savingId == sid).length)) ∧
    ((db.transactions.filter fun t => t.savingId == sid) = [] →
      deleteSaving db u sid =
        .ok ({ db with savings := db.savings.filter fun x => !(x.id == sid) }, s) ∧
      ({ db with savings := db.savings.filter fun x => !(x.id == sid) } : DB).transactions
        = db.transactions ∧
      (∀ x ∈ db.savings.filter fun x => !(x.id == sid), x.id ≠ sid) ∧
      (∀ x ∈ db.savings, x.id ≠ sid →
        x ∈ db.savings.filter fun x => !(x.id == sid))) := by
  constructor
  · intro hne
    simp only [deleteSaving, hfind]
    rw [if_pos (List.length_pos.2 hne)]
  · intro hemp
    refine ⟨?_, rfl, ?_, ?_⟩
    · simp only [deleteSaving, hfind, hemp]
      simp
    · intro x hx
      have := (List.mem_filter.1 hx).2
      simpa using this
    · intro x hx hid
      exact List.mem_filter.2 ⟨hx, by simpa using hid⟩

/-- Witness for the C7 theorem: deleting the saving of `dbOneTx`, which
has one dependent transaction, fails with a `Conflict` carrying the
count 1. -/
theorem deleteSaving_guard_witness :
    dbOneTx.savings.find? (fun x => x.id == 1 && x.userId == 1) = some savL ∧
    (dbOneTx.transactions.filter fun t => t.savingId == 1) ≠ [] ∧
    deleteSaving dbOneTx 1 1 =
      .error (.conflict "Cannot delete saving with existing transactions"
        (dbOneTx.transactions.filter fun t => t.savingId == 1).length) := by
  have hfind : dbOneTx.savings.find? (fun x => x.id == 1 && x.userId == 1) = some savL := by
    simp [dbOneTx, savL, List.find?]
  have hne : (dbOneTx.transactions.filter fun t => t.savingId == 1) ≠ [] := by
    simp [dbOneTx, txOf, List.filter]
  exact ⟨hfind, hne, (deleteSaving_guard hfind).1 hne⟩

/-- **C8**: force-deleting an owned saving with N dependent transactions
removes, in one atomic step of the model (the `$transaction` block),
exactly the rows referencing the saving plus the saving row itself,
reports N, and afterwards looking the saving or any of the removed
transaction ids up again (as deletion, update or safe deletion do)
yields `NotFound`; rows of other savings survive. -/
theorem forceDeleteSaving_cascade {db : DB} {u sid : Nat} {s : Saving}
    (hfind : db.savings.find? (fun x => x.id == sid && x.userId == u) = some s)
    (hnodup : (db.transactions.map fun t => t.id).Nodup) :
    forceDeleteSaving db u sid =
      .ok ({ db with
              transactions := db.transactions.filter fun t => !(t.savingId == sid)
              savings := db.savings.filter fun x => !(x.id == sid) },
           s, (db.transactions.filter fun t => t.savingId == sid).length) ∧
    deleteSaving
        { db with
          transactions := db.transactions.filter fun t => !(t.savingId == sid)
          savings := db.savings.filter fun x => !(x.id == sid) } u sid =
      .error (.notFound "Saving not found or does not belong to you") ∧
    (∀ t ∈ db.transactions, t.savingId = sid →
      updateTransaction
          { db with
            transactions := db.transactions.filter fun t => !(t.savingId == sid)
            savings := db.savings.filter fun x => !(x.id == sid) } u t.id none none none =
        .error (.notFound "Transaction not found") ∧
      deleteTransaction
          { db with
            transactions := db.transactions.filter fun t => !(t.savingId == sid)
            savings := db.savings.filter fun x => !(x.id == sid) } u t.id =
        .error (.notFound "Transaction not found")) ∧
    (∀ t ∈ db.transactions, t.savingId ≠ sid →
      t ∈ db.transactions.filter fun t => !(t.savingId == sid)) ∧
    (∀ x ∈ db.savings, x.id ≠ sid →
      x ∈ db.savings.filter fun x => !(x.id == sid)) := by
  have hsfind : (db.savings.filter fun x => !(x.id == sid)).find?
      (fun x => x.id == sid && x.userId == u) = none := by
    apply List.find?_eq_none.2
    intro x hx
    have hxid := (List.mem_filter.1 hx).2
    simp only [Bool.not_eq_true'] at hxid
    simp [hxid]
  have htfind : ∀ t ∈ db.transactions, t.savingId = sid →
      (db.transactions.filter fun t => !(t.savingId == sid)).find?
        (fun x => x.id == t.id && x.userId == u) = none := by
    intro t ht htsid
    apply List.find?_eq_none.2
    intro x hx
    obtain ⟨hxmem, hxkeep⟩ := List.mem_filter.1 hx
    simp only [Bool.not_eq_true'] at hxkeep
    intro hcontra
    simp only [Bool.and_eq_true, beq_iff_eq] at hcontra
    have hxt : x = t := List.inj_on_of_nodup_map hnodup hxmem ht hcontra.1
    rw [hxt, htsid] at hxkeep
    simp at hxkeep
  refine ⟨?_, ?_, ?_, ?_, ?_⟩
  · simp only [forceDeleteSaving, hfind]
  · simp only [deleteSaving, hsfind]
  · intro t ht htsid
    constructor
    · simp only [updateTransaction, htfind t ht htsid]
    · simp only [deleteTransaction, htfind t ht htsid]
  · intro t ht hts
    exact List.mem_filter.2 ⟨ht, by simpa using hts⟩
  · intro x hx hid
    exact List.mem_filter.2 ⟨hx, by simpa using hid⟩

/-- Witness for the C8 theorem at `dbOneTx`: its single transaction and
the saving row disappear, the count 1 is reported, and the follow-up
lookups fail with `NotFound`. -/
theorem forceDeleteSaving_cascade_witness :
    dbOneTx.savings.find? (fun x => x.id == 1 && x.userId == 1) = some savL ∧
    (dbOneTx.transactions.map fun t => t.id).Nodup ∧
    forceDeleteSaving dbOneTx 1 1 =
      .ok ({ dbOneTx with
              transactions := dbOneTx.transactions.filter fun t => !(t.savingId == 1)
              savings := dbOneTx.savings.filter fun x => !(x.id == 1) },
           savL, (dbOneTx.transactions.filter fun t => t.savingId == 1).length) ∧
    deleteSaving
        { dbOneTx with
          transactions := dbOneTx.transactions.filter fun t => !(t.savingId == 1)
          savings := dbOneTx.savings.filter fun x => !(x.id == 1) } 1 1 =
      .error (.notFound "Saving not found or does not belong to you") ∧
    updateTransaction
        { dbOneTx with
          transactions := dbOneTx.transactions.filter fun t => !(t.savingId == 1)
          savings := dbOneTx.savings.filter fun x => !(x.id == 1) } 1
        (txOf 1 5 100 1).id none none none =
      .error (.notFound "Transaction not found") := by
  have hfind : dbOneTx.savings.find? (fun x => x.id == 1 && x.userId == 1) = some savL := by
    simp [dbOneTx, savL, List.find?]
  have hnodup : (dbOneTx.transactions.map fun t => t.id).Nodup := by
    simp [dbOneTx, txOf]
  have h := forceDeleteSaving_cascade hfind hnodup
  exact ⟨hfind, hnodup, h.1, h.2.1,
    (h.2.2.1 (txOf 1 5 100 1) (by simp [dbOneTx]) (by simp [txOf])).1⟩

end TabunganKita

namespace TabunganKita

/-- Updating the row with a given id through `List.map` does not change
the rows of another owner `B`, provided ids are unique, the row with the
key id belongs to `A ≠ B`, and the update cannot hand a row to `B`. -/
theorem filter_owner_map_patch {α : Type} (idOf ownerOf : α → Nat) {l : List α}
    {A B key : Nat} (hAB : A ≠ B) (hnodup : (l.map idOf).Nodup) {old : α}
    (holdmem : old ∈ l) (holdid : idOf old = key) (holdowner : ownerOf old = A)
    (g : α → α) (hgB : ∀ t ∈ l, ownerOf t ≠ B → ownerOf (g t) ≠ B) :
    (l.map fun t => if idOf t == key then g t else t).filter (fun t => ownerOf t == B) =
      l.filter (fun t => ownerOf t == B) := by
  apply filter_map_eq_of_fix
  intro a ha
  constructor
  · intro hpa
    by_cases hid : (idOf a == key) = true
    · exfalso
      simp only [beq_iff_eq] at hpa hid
      have ha_old : a = old := List.inj_on_of_nodup_map hnodup ha holdmem (by rw [hid, holdid])
      rw [ha_old, holdowner] at hpa
      exact hAB hpa
    · rw [if_neg hid]
  · intro hpa
    by_cases hid : (idOf a == key) = true
    · rw [if_pos hid]
      have haB : ownerOf a ≠ B := by simpa using hpa
      simpa using hgB a ha haB
    · rw [if_neg hid]
      exact hpa

/-- Appending a row of an owner other than `B` does not change `B`'s rows. -/
theorem filter_owner_append {α : Type} (ownerOf : α → Nat) {B : Nat} (l : List α) (x : α)
    (hx : ownerOf x ≠ B) :
    (l ++ [x]).filter (fun t => ownerOf t == B) = l.filter (fun t => ownerOf t == B) := by
  rw [List.filter_append]
  have hxB : (ownerOf x == B) = false := by simpa using hx
  have : [x].filter (fun t => ownerOf t == B) = [] := by
    simp [List.filter, hxB]
  rw [this, List.append_nil]

/-- A deletion (`List.filter keep`) that keeps every row of owner `B`
does not change `B`'s rows. -/
theorem filter_owner_erase {α : Type} (ownerOf : α → Nat) {B : Nat} (l : List α)
    (keep : α → Bool) (h : ∀ a ∈ l, ownerOf a = B → keep a = true) :
    (l.filter keep).filter (fun t => ownerOf t == B) = l.filter (fun t => ownerOf t == B) :=
  filter_filter_eq_of_imp l keep _ (fun a ha hpa => h a ha (by simpa using hpa))

/-- Every decorated view produced by `addRunningTotals` wraps one of the
input transactions. -/
theorem mem_addRunningTotals_tx {d : Rat} :
    ∀ (l : List Transaction) (acc : Rat) (v : TxView),
      v ∈ addRunningTotals d l acc → v.tx ∈ l := by
  intro l
  induction l with
  | nil =>
    intro acc v h
    simp [addRunningTotals] at h
  | cons t ts ih =>
    intro acc v h
    simp only [addRunningTotals, List.mem_cons] at h
    rcases h with h | h
    · subst h
      exact List.mem_cons_self _ _
    · exact List.mem_cons_of_mem _ (ih _ v h)

end TabunganKita

namespace TabunganKita

/-- The per-operation ownership-isolation property for a caller `A`
against any other user `B`: reads return only rows owned by `A` (the
rows included under a saving being `A`'s by the well-formedness
invariant), writes referencing a resource owned by `B` fail with
`NotFound` (an error result carries no state, so nothing changes), and
successful writes leave every row owned by `B` untouched. -/
def IsolationSpec (A B : Nat) : Prop :=
  (∀ (db : DB) (req : SavingReq) (db' : DB) (s : Saving), WF db →
    upsertSaving db A req = .ok (db', s) →
    s.userId = A ∧ savingsOf db' B = savingsOf db B ∧ db'.transactions = db.transactions) ∧
  (∀ (db : DB), WF db → ∀ item ∈ listSavings db A,
    item.saving.userId = A ∧ ∀ t ∈ item.transactions, t.userId = A) ∧
  (∀ (db : DB) (y m : Int) (now : DateV) (s : Saving) (txs : List Transaction)
    (sum : MonthSummary), WF db → getSaving db A y m now = .ok (s, txs, sum) →
    s.userId = A ∧ ∀ t ∈ txs, t.userId = A) ∧
  (∀ (db : DB) (sid : Nat), (∀ x ∈ db.savings, x.id = sid → x.userId = B) →
    deleteSaving db A sid = .error (.notFound "Saving not found or does not belong to you")) ∧
  (∀ (db : DB) (sid : Nat) (db' : DB) (s : Saving), WF db →
    deleteSaving db A sid = .ok (db', s) →
    savingsOf db' B = savingsOf db B ∧ db'.transactions = db.transactions) ∧
  (∀ (db : DB) (sid : Nat), (∀ x ∈ db.savings, x.id = sid → x.userId = B) →
    forceDeleteSaving db A sid =
      .error (.notFound "Saving not found or does not belong to you")) ∧
  (∀ (db : DB) (sid : Nat) (db' : DB) (s : Saving) (n : Nat), WF db →
    forceDeleteSaving db A sid = .ok (db', s, n) →
    savingsOf db' B = savingsOf db B ∧ txsOf db' B = txsOf db B) ∧
  (∀ (db : DB) (req : TxCreateReq) (now : DateV),
    truthyNum req.amount = true → ¬req.amount.getD 0 ≤ 0 → truthyNat req.savingId = true →
    (∀ x ∈ db.savings, x.id = req.savingId.getD 0 → x.userId = B) →
    createTransaction db A req now = .error (.notFound "Saving not found")) ∧
  (∀ (db : DB) (req : TxCreateReq) (now : DateV) (db' : DB) (tx : Transaction),
    createTransaction db A req now = .ok (db', tx) →
    tx.userId = A ∧ txsOf db' B = txsOf db B ∧ db'.savings = db.savings) ∧
  (∀ (db : DB) (sid : Nat) (views : List TxView),
    listTransactionsForSaving db A sid = .ok views → ∀ v ∈ views, v.tx.userId = A) ∧
  (∀ (db : DB) (sid : Nat), (∀ x ∈ db.savings, x.id = sid → x.userId = B) →
    listTransactionsForSaving db A sid = .error (.notFound "Saving not found")) ∧
  (∀ (db : DB) (limit offset : Nat),
    ∀ t ∈ (listTransactions db A limit offset).1, t.userId = A) ∧
  (∀ (db : DB) (txId : Nat) (am : Option Rat) (ds : Option String) (dt : Option DateV),
    (∀ x ∈ db.transactions, x.id = txId → x.userId = B) →
    updateTransaction db A txId am ds dt = .error (.notFound "Transaction not found")) ∧
  (∀ (db : DB) (txId : Nat) (am : Option Rat) (ds : Option String) (dt : Option DateV)
    (db' : DB) (tx' : Transaction), WF db →
    updateTransaction db A txId am ds dt = .ok (db', tx') →
    tx'.userId = A ∧ txsOf db' B = txsOf db B ∧ db'.savings = db.savings) ∧
  (∀ (db : DB) (txId : Nat), (∀ x ∈ db.transactions, x.id = txId → x.userId = B) →
    deleteTransaction db A txId = .error (.notFound "Transaction not found")) ∧
  (∀ (db : DB) (txId : Nat) (db' : DB), WF db →
    deleteTransaction db A txId = .ok db' →
    txsOf db' B = txsOf db B ∧ db'.savings = db.savings)

end TabunganKita

namespace TabunganKita

/-- If every row with the looked-up id belongs to `B ≠ A`, the
ownership-scoped `findFirst` of caller `A` comes back empty. -/
theorem find?_owned_none {α : Type} (idOf ownerOf : α → Nat) {l : List α} {key A B : Nat}
    (hAB : A ≠ B) (hB : ∀ x ∈ l, idOf x = key → ownerOf x = B) :
    l.find? (fun x => idOf x == key && ownerOf x == A) = none := by
  apply List.find?_eq_none.2
  intro x hx
  simp only [Bool.and_eq_true, beq_iff_eq, not_and]
  intro hxid
  rw [hB x hx hxid]
  exact Ne.symm hAB

/-- **C9**: every operation of the engine, invoked by `A`, returns only
rows owned by `A` and leaves every row owned by `B ≠ A` unchanged;
writes that reference a resource owned by `B` fail with `NotFound` and
(being error results) produce no state change.  The store is assumed
well-formed (unique ids, transactions owned by their saving's owner) -
an invariant the engine itself maintains. -/
theorem ownership_isolation (A B : Nat) (hAB : A ≠ B) : IsolationSpec A B := by
  unfold IsolationSpec
  refine ⟨?_, ?_, ?_, ?_, ?_, ?_, ?_, ?_, ?_, ?_, ?_, ?_, ?_, ?_, ?_, ?_⟩
  · -- upsertSaving: returned row is A's, B's rows unchanged
    intro db req db' s hwf h
    obtain ⟨hu, -, -, -, -, -, -, -, -, -, htx⟩ := upsertSaving_ok_fields h
    refine ⟨hu, ?_, htx⟩
    cases hwper : (req.period.getD "monthly" == "weekly") with
    | false =>
      have hper : req.period.getD "monthly" ≠ "weekly" := by simpa using hwper
      rcases upsertSaving_monthly_ok hper h with ⟨-, -, happ⟩ | ⟨s0, hsome, -, hmap⟩
      · unfold savingsOf
        rw [happ]
        refine filter_owner_append (fun x => x.userId) db.savings s ?_
        intro hh
        simp only [hu] at hh
        exact hAB hh
      · unfold savingsOf
        rw [hmap]
        have hp := List.find?_some hsome
        simp only [Bool.and_eq_true, beq_iff_eq] at hp
        exact filter_owner_map_patch (fun x => x.id) (fun x => x.userId) hAB hwf.1
          (List.mem_of_find?_eq_some hsome) rfl hp.1.1.1 (fun _ => s)
          (fun t _ _ => by intro hh; simp only [hu] at hh; exact hAB hh)
    | true =>
      have hper : req.period.getD "monthly" = "weekly" := by simpa using hwper
      rcases upsertSaving_weekly_ok hper h with ⟨-, -, happ⟩ | ⟨s0, hsome, -, hmap⟩
      · unfold savingsOf
        rw [happ]
        refine filter_owner_append (fun x => x.userId) db.savings s ?_
        intro hh
        simp only [hu] at hh
        exact hAB hh
      · unfold savingsOf
        rw [hmap]
        have hp := List.find?_some hsome
        simp only [Bool.and_eq_true, beq_iff_eq] at hp
        exact filter_owner_map_patch (fun x => x.id) (fun x => x.userId) hAB hwf.1
          (List.mem_of_find?_eq_some hsome) rfl hp.1.1.1 (fun _ => s)
          (fun t _ _ => by intro hh; simp only [hu] at hh; exact hAB hh)
  · -- listSavings: only A's rows, included transactions are A's by WF
    intro db hwf item hitem
    simp only [listSavings] at hitem
    obtain ⟨srow, hsrow, hback⟩ := List.mem_map.1 hitem
    subst hback
    have hsrow' := (mem_sortRows _ _ _).1 hsrow
    obtain ⟨hsmem, hsA⟩ := List.mem_filter.1 hsrow'
    have hsA' : srow.userId = A := by simpa using hsA
    refine ⟨hsA', ?_⟩
    intro t ht
    obtain ⟨htmem, htsid⟩ := List.mem_filter.1 ht
    have := hwf.2.2 t htmem srow hsmem (by simpa using htsid)
    rw [this, hsA']
  · -- getSaving: the monthly row and its included transactions are A's
    intro db y m now s txs sum hwf h
    simp only [getSaving] at h
    split at h
    · exact absurd h (by simp)
    next s0 heq =>
      simp only [Except.ok.injEq, Prod.mk.injEq] at h
      obtain ⟨hs0, htxs, -⟩ := h
      subst hs0
      subst htxs
      have hp := List.find?_some heq
      simp only [Bool.and_eq_true, beq_iff_eq] at hp
      refine ⟨hp.1.1.1, ?_⟩
      intro t ht
      have hmem := (mem_sortRows _ _ _).1 ht
      obtain ⟨htmem, htsid⟩ := List.mem_filter.1 hmem
      have hts := hwf.2.2 t htmem s0 (List.mem_of_find?_eq_some heq) (by simpa using htsid)
      rw [hts, hp.1.1.1]
  · -- deleteSaving on a foreign saving: NotFound
    intro db sid hB
    have hnone := find?_owned_none (fun x : Saving => x.id) (fun x => x.userId) hAB hB
    simp only [deleteSaving, hnone]
  · -- deleteSaving success: B's rows unchanged
    intro db sid db' s hwf h
    simp only [deleteSaving] at h
    split at h
    · exact absurd h (by simp)
    next s0 heq =>
      split at h
      · exact absurd h (by simp)
      next hlen =>
        simp only [Except.ok.injEq, Prod.mk.injEq] at h
        obtain ⟨hdb', -⟩ := h
        subst hdb'
        have hp := List.find?_some heq
        simp only [Bool.and_eq_true, beq_iff_eq] at hp
        refine ⟨?_, rfl⟩
        unfold savingsOf
        apply filter_owner_erase
        intro a ha haB
        simp only [Bool.not_eq_true']
        apply beq_eq_false_iff_ne.2
        intro haid
        have ha_s0 : a = s0 :=
          List.inj_on_of_nodup_map hwf.1 ha (List.mem_of_find?_eq_some heq)
            (by rw [haid, hp.1])
        rw [ha_s0, hp.2] at haB
        exact hAB haB
  · -- forceDeleteSaving on a foreign saving: NotFound
    intro db sid hB
    have hnone := find?_owned_none (fun x : Saving => x.id) (fun x => x.userId) hAB hB
    simp only [forceDeleteSaving, hnone]
  · -- forceDeleteSaving success: B's rows unchanged
    intro db sid db' s n hwf h
    simp only [forceDeleteSaving] at h
    split at h
    · exact absurd h (by simp)
    next s0 heq =>
      simp only [Except.ok.injEq, Prod.mk.injEq] at h
      obtain ⟨hdb', -, -⟩ := h
      subst hdb'
      have hp := List.find?_some heq
      simp only [Bool.and_eq_true, beq_iff_eq] at hp
      constructor
      · unfold savingsOf
        apply filter_owner_erase
        intro a ha haB
        simp only [Bool.not_eq_true']
        apply beq_eq_false_iff_ne.2
        intro haid
        have ha_s0 : a = s0 :=
          List.inj_on_of_nodup_map hwf.1 ha (List.mem_of_find?_eq_some heq)
            (by rw [haid, hp.1])
        rw [ha_s0, hp.2] at haB
        exact hAB haB
      · unfold txsOf
        apply filter_owner_erase
        intro a ha haB
        simp only [Bool.not_eq_true']
        apply beq_eq_false_iff_ne.2
        intro hasid
        have ha_own : a.userId = s0.userId :=
          hwf.2.2 a ha s0 (List.mem_of_find?_eq_some heq) (by rw [hasid, hp.1])
        rw [hp.2] at ha_own
        rw [ha_own] at haB
        exact hAB haB
  · -- createTransaction against a foreign saving: NotFound
    intro db req now htA hle hsid hB
    have hnone := find?_owned_none (fun x : Saving => x.id) (fun x => x.userId) hAB hB
    simp only [createTransaction, htA, hsid, Bool.not_true, Bool.or_self,
      Bool.false_eq_true, if_false]
    rw [if_neg hle]
    simp only [hnone]
  · -- createTransaction success: the new row is A's, B's rows unchanged
    intro db req now db' tx h
    simp only [createTransaction] at h
    split at h
    · exact absurd h (by simp)
    next hc =>
      split at h
      · exact absurd h (by simp)
      next hc2 =>
        split at h
        · exact absurd h (by simp)
        next s0 heq =>
          simp only [Except.ok.injEq, Prod.mk.injEq] at h
          obtain ⟨hdb', htx⟩ := h
          subst hdb'
          subst htx
          refine ⟨rfl, ?_, rfl⟩
          unfold txsOf
          refine filter_owner_append (fun x => x.userId) db.transactions _ ?_
          intro hh
          simp only at hh
          exact hAB hh
  · -- listTransactionsForSaving: every returned view is A's
    intro db sid views h
    simp only [listTransactionsForSaving] at h
    split at h
    · exact absurd h (by simp)
    next s0 heq =>
      simp only [Except.ok.injEq] at h
      subst h
      intro v hv
      have hv' := List.mem_reverse.1 hv
      have hvtx := mem_addRunningTotals_tx _ _ _ hv'
      have hmem := (mem_sortRows _ _ _).1 hvtx
      have := (List.mem_filter.1 hmem).2
      simp only [Bool.and_eq_true, beq_iff_eq] at this
      exact this.2
  · -- listTransactionsForSaving on a foreign saving: NotFound
    intro db sid hB
    have hnone := find?_owned_none (fun x : Saving => x.id) (fun x => x.userId) hAB hB
    simp only [listTransactionsForSaving, hnone]
  · -- listTransactions: only A's rows
    intro db limit offset t ht
    simp only [listTransactions] at ht
    have h1 := List.mem_of_mem_take ht
    have h2 := List.mem_of_mem_drop h1
    have h3 := (mem_sortRows _ _ _).1 h2
    have := (List.mem_filter.1 h3).2
    simpa using this
  · -- updateTransaction on a foreign transaction: NotFound
    intro db txId am ds dt hB
    have hnone := find?_owned_none (fun x : Transaction => x.id) (fun x => x.userId) hAB hB
    simp only [updateTransaction, hnone]
  · -- updateTransaction success: patched row is A's, B's rows unchanged
    intro db txId am ds dt db' tx' hwf h
    simp only [updateTransaction] at h
    split at h
    · exact absurd h (by simp)
    next old heq =>
      simp only [Except.ok.injEq, Prod.mk.injEq] at h
      obtain ⟨hdb', htx⟩ := h
      subst hdb'
      have hp := List.find?_some heq
      simp only [Bool.and_eq_true, beq_iff_eq] at hp
      refine ⟨?_, ?_, rfl⟩
      · subst htx
        simpa [applyTxPatch] using hp.2
      · unfold txsOf
        exact filter_owner_map_patch (fun x => x.id) (fun x => x.userId) hAB hwf.2.1
          (List.mem_of_find?_eq_some heq) hp.1 hp.2 (applyTxPatch am ds dt)
          (fun t _ htB => by simpa [applyTxPatch] using htB)
  · -- deleteTransaction on a foreign transaction: NotFound
    intro db txId hB
    have hnone := find?_owned_none (fun x : Transaction => x.id) (fun x => x.userId) hAB hB
    simp only [deleteTransaction, hnone]
  · -- deleteTransaction success: B's rows unchanged
    intro db txId db' hwf h
    simp only [deleteTransaction] at h
    split at h
    · exact absurd h (by simp)
    next old heq =>
      simp only [Except.ok.injEq] at h
      subst h
      have hp := List.find?_some heq
      simp only [Bool.and_eq_true, beq_iff_eq] at hp
      refine ⟨?_, rfl⟩
      unfold txsOf
      apply filter_owner_erase
      intro a ha haB
      simp only [Bool.not_eq_true']
      apply beq_eq_false_iff_ne.2
      intro haid
      have ha_old : a = old :=
        List.inj_on_of_nodup_map hwf.2.1 ha (List.mem_of_find?_eq_some heq)
          (by rw [haid, hp.1])
      rw [ha_old, hp.2] at haB
      exact hAB haB

end TabunganKita

namespace TabunganKita

/-- The store `dbOneTx` after user 1 re-upserts the January 2025 slot. -/
def dbOneTxUp : DB :=
  { savings := [savM], transactions := [txOf 1 5 100 1], nextSavingId := 2, nextTxId := 2 }

/-- Witness for the C9 theorem: caller 1 and other user 2 on a concrete
well-formed store, instantiating the upsert conjunct. -/
theorem ownership_isolation_witness :
    (1 : Nat) ≠ 2 ∧ WF dbOneTx ∧
    upsertSaving dbOneTx 1 reqM = .ok (dbOneTxUp, savM) ∧
    savM.userId = 1 ∧ savingsOf dbOneTxUp 2 = savingsOf dbOneTx 2 ∧
    dbOneTxUp.transactions = dbOneTx.transactions := by
  have hAB : (1 : Nat) ≠ 2 := by decide
  have hwf : WF dbOneTx := by decide
  have hup : upsertSaving dbOneTx 1 reqM = .ok (dbOneTxUp, savM) := by
    norm_num [upsertSaving, dbOneTx, savL, reqM, dbOneTxUp, savM, txOf, truthyNum, truthyInt,
      daysInMonth, isLeapYear, List.find?, (show ¬("monthly" = "weekly") by decide)]
  have h := (ownership_isolation 1 2 hAB).1 dbOneTx reqM dbOneTxUp savM hwf hup
  exact ⟨hAB, hwf, hup, h.1, h.2.1, h.2.2⟩

end TabunganKita
